import Mathlib

/-
Verification of the scrape orchestration and metric-emission logic of
iptables_exporter (src/iptables_exporter.go).

The core under study is the `collector` type with its `Describe` and
`Collect` methods.  `Collect` iterates over the two configured command
strings, token-splits each one with a shell-quoting-aware splitter
(google/shlex, an external collaborator), trims the first token, skips the
command when that token is empty, runs the counter-dump runner
(`iptables.GetTables`, a collaborator specified only by its interface:
executable + args -> table/chain/rule hierarchy or failure), and streams
labeled samples to a channel.  On a runner failure it emits
`scrape_success = 0` and returns; after all commands succeed it emits
`scrape_success = 1` and `scrape_duration_seconds`.

The two collaborators are modelled as function parameters (`Splitter`,
`Runner`): the splitter returns the token list together with an error flag
(the Go `shlex.Split` returns `([]string, error)`), the runner returns
`Option Tables`.  The Go code at line 93 discards the splitter's error
(`_command, _ := shlex.Split(command)`) and unconditionally indexes
`_command[0]`; indexing an empty slice panics in Go, which the embedding
records as the `panicked` loop exit (samples already sent on the channel
before the panic stay emitted, nothing further is emitted).
-/

namespace IptablesExporter

/-- One firewall rule as parsed by the counter-dump runner: verbatim rule
text plus cumulative packet and byte counters (modelled from the use of
`rule.Rule`, `rule.Packets`, `rule.Bytes` in src/iptables_exporter.go and
the data model of the specification). -/
structure Rule where
  rule : String
  packets : Nat
  bytes : Nat
deriving DecidableEq

/-- One chain: default policy, default-policy counters, and its ordered
rules (modelled from the use of `chain.Policy`, `chain.Packets`,
`chain.Bytes`, `chain.Rules` in src/iptables_exporter.go). -/
structure Chain where
  policy : String
  packets : Nat
  bytes : Nat
  rules : List Rule
deriving DecidableEq

/-- A table is a named collection of chains.  In Go this is a map keyed by
chain name; the embedding uses the association list produced by one
enumeration of that map. -/
abbrev Table := List (String × Chain)

/-- The full result of one counter-dump run: tables keyed by name, again
one enumeration of the Go map. -/
abbrev Tables := List (String × Table)

/-- One sample sent to the metric channel.  Each constructor is one of the
six metric families of the exporter together with its label values (in the
order they are passed to `prometheus.MustNewConstMetric`) and its value.
Counter values are the `uint64` counters (their `float64` image is
injective on values below 2^53; the conversion itself is not modelled).
The scrape duration is real-valued, modelled as a rational. -/
inductive Metric where
  | scrapeSuccess (value : Nat)
  | scrapeDuration (seconds : ℚ)
  | defaultPackets (command table chain policy : String) (value : Nat)
  | defaultBytes (command table chain policy : String) (value : Nat)
  | rulePackets (command table chain rule : String) (value : Nat)
  | ruleBytes (command table chain rule : String) (value : Nat)
deriving DecidableEq

/-- The shell-token splitter collaborator (google/shlex `Split`): a token
list plus an error flag (`true` means splitting failed, e.g. an
unterminated quote; google/shlex returns the tokens completed before the
failure point alongside the error). -/
abbrev Splitter := String → List String × Bool

/-- The counter-dump runner collaborator (`iptables.GetTables`):
executable name and argument vector to parsed hierarchy, or `none` on an
execution/parsing failure. -/
abbrev Runner := String → List String → Option Tables

/-- Characters removed by `strings.Trim(s, " \t\r\n")`. -/
def isTrimChar (c : Char) : Bool :=
  c = ' ' || c = '\t' || c = '\r' || c = '\n'

/-- Go `strings.Trim(s, " \t\r\n")`: drop the cutset characters from both
ends of the string. -/
def trimWS (s : String) : String :=
  String.mk (((s.toList.dropWhile isTrimChar).reverse.dropWhile isTrimChar).reverse)

/-- Samples emitted for one rule (lines 125-144 of the source): one
`rule_packets_total` and one `rule_bytes_total`, labeled
{command, table, chain, rule}. -/
def emitRule (command tableName chainName : String) (r : Rule) : List Metric :=
  [Metric.rulePackets command tableName chainName r.rule r.packets,
   Metric.ruleBytes command tableName chainName r.rule r.bytes]

/-- Samples emitted for one chain (lines 107-144): the two default-policy
counters labeled {command, table, chain, policy}, then the per-rule
samples in rule order. -/
def emitChain (command tableName chainName : String) (ch : Chain) : List Metric :=
  Metric.defaultPackets command tableName chainName ch.policy ch.packets ::
  Metric.defaultBytes command tableName chainName ch.policy ch.bytes ::
  ch.rules.flatMap (emitRule command tableName chainName)

/-- Samples emitted for one table (lines 106-145). -/
def emitTable (command tableName : String) (t : Table) : List Metric :=
  t.flatMap fun p => emitChain command tableName p.1 p.2

/-- Samples emitted for one successfully parsed command result
(lines 105-146). -/
def emitTables (command : String) (ts : Tables) : List Metric :=
  ts.flatMap fun p => emitTable command p.1 p.2

/-- What processing one configured command string does before any sample
is emitted for it (lines 92-103 of the source): split, index the first
token (a Go panic when the splitter returned no tokens), trim it, skip on
empty, otherwise run the runner with the remaining tokens. -/
inductive CmdStep where
  | panicked
  | skip
  | failed
  | success (command : String) (tables : Tables)
deriving DecidableEq

/-- Classify one loop iteration of `Collect` (lines 92-103).  Note the
split error is discarded exactly as the source discards it. -/
def stepCommand (split : Splitter) (runner : Runner) (c : String) : CmdStep :=
  match (split c).1 with
  | [] => CmdStep.panicked
  | t0 :: args =>
    let command := trimWS t0
    if command.length < 1 then CmdStep.skip
    else
      match runner command args with
      | none => CmdStep.failed
      | some tables => CmdStep.success command tables

/-- How the command loop of `Collect` ended: all commands processed,
early `return` after a runner failure (line 102), or a Go panic from
indexing an empty token slice (line 94). -/
inductive LoopExit where
  | done
  | failed
  | panicked
deriving DecidableEq

/-- The command loop of `Collect` (lines 92-147): the samples sent to the
channel, in order, together with how the loop ended.  On a failure the
single `scrape_success = 0` sample (line 100) is the last thing sent. -/
def collectLoop (split : Splitter) (runner : Runner) : List String → List Metric × LoopExit
  | [] => ([], LoopExit.done)
  | c :: rest =>
    match stepCommand split runner c with
    | CmdStep.panicked => ([], LoopExit.panicked)
    | CmdStep.skip => collectLoop split runner rest
    | CmdStep.failed => ([Metric.scrapeSuccess 0], LoopExit.failed)
    | CmdStep.success command tables =>
      (emitTables command tables ++ (collectLoop split runner rest).1,
       (collectLoop split runner rest).2)

/-- The full sample stream of one `Collect` call (lines 89-151).  `dur` is
the elapsed wall-clock time measured by `time.Since(start)`; only when the
loop runs to completion are `scrape_success = 1` and the duration sample
appended (lines 148-150).  An early `return` or a panic emits nothing
beyond what the loop already sent. -/
def collect (split : Splitter) (runner : Runner) (dur : ℚ) (cmds : List String) : List Metric :=
  match collectLoop split runner cmds with
  | (ms, LoopExit.done) => ms ++ [Metric.scrapeSuccess 1, Metric.scrapeDuration dur]
  | (ms, LoopExit.failed) => ms
  | (ms, LoopExit.panicked) => ms

/-- The configuration step of `main` (lines 205-212 of the source): an
empty configured command-line value is replaced by the two-character
string consisting of two single quotes, which the splitter turns into one
empty token, so that the scrape loop skips the slot. -/
def configureCommand (s : String) : String :=
  if s.length < 1 then "\x27\x27" else s

/-- A metric descriptor: family name, help text, variable label names
(mirroring `prometheus.NewDesc`). -/
structure Desc where
  name : String
  help : String
  labels : List String
deriving DecidableEq

/-- Descriptor from lines 35-40 of the source. -/
def scrapeDurationDesc : Desc :=
  ⟨"iptables_scrape_duration_seconds",
   "iptables_exporter: Duration of scraping iptables.", []⟩

/-- Descriptor from lines 42-47 of the source. -/
def scrapeSuccessDesc : Desc :=
  ⟨"iptables_scrape_success",
   "iptables_exporter: Whether scraping iptables succeeded.", []⟩

/-- Descriptor from lines 49-54 of the source. -/
def defaultBytesDesc : Desc :=
  ⟨"iptables_default_bytes_total",
   "iptables_exporter: Total bytes matching a chain\x27s default policy.",
   ["command", "table", "chain", "policy"]⟩

/-- Descriptor from lines 56-61 of the source. -/
def defaultPacketsDesc : Desc :=
  ⟨"iptables_default_packets_total",
   "iptables_exporter: Total packets matching a chain\x27s default policy.",
   ["command", "table", "chain", "policy"]⟩

/-- Descriptor from lines 63-68 of the source. -/
def ruleBytesDesc : Desc :=
  ⟨"iptables_rule_bytes_total",
   "iptables_exporter: Total bytes matching a rule.",
   ["command", "table", "chain", "rule"]⟩

/-- Descriptor from lines 70-75 of the source. -/
def rulePacketsDesc : Desc :=
  ⟨"iptables_rule_packets_total",
   "iptables_exporter: Total packets matching a rule.",
   ["command", "table", "chain", "rule"]⟩

/-- The `Describe` method (lines 80-87): the six package-level descriptors
in source order.  The descriptors are initialized once and never written
afterwards, so the result does not depend on the scrape history; the
history parameter records that independence. -/
def describe (_history : List (List Metric)) : List Desc :=
  [scrapeDurationDesc, scrapeSuccessDesc, defaultBytesDesc,
   defaultPacketsDesc, ruleBytesDesc, rulePacketsDesc]

/-- The timeseries identity of a sample as the registry sees it: metric
family name plus the ordered label values passed to
`MustNewConstMetric`. -/
def seriesKey : Metric → String × List String
  | Metric.scrapeSuccess _ => (scrapeSuccessDesc.name, [])
  | Metric.scrapeDuration _ => (scrapeDurationDesc.name, [])
  | Metric.defaultPackets c t ch p _ => (defaultPacketsDesc.name, [c, t, ch, p])
  | Metric.defaultBytes c t ch p _ => (defaultBytesDesc.name, [c, t, ch, p])
  | Metric.rulePackets c t ch r _ => (rulePacketsDesc.name, [c, t, ch, r])
  | Metric.ruleBytes c t ch r _ => (ruleBytesDesc.name, [c, t, ch, r])

/-- The `command` label value of a sample, when it has one. -/
def commandLabel : Metric → Option String
  | Metric.defaultPackets c _ _ _ _ => some c
  | Metric.defaultBytes c _ _ _ _ => some c
  | Metric.rulePackets c _ _ _ _ => some c
  | Metric.ruleBytes c _ _ _ _ => some c
  | _ => none

/-- Is the sample a default-policy counter sample? -/
def isDefaultSample : Metric → Bool
  | Metric.defaultPackets _ _ _ _ _ => true
  | Metric.defaultBytes _ _ _ _ _ => true
  | _ => false

/-- Is the sample a per-rule counter sample? -/
def isRuleSample : Metric → Bool
  | Metric.rulePackets _ _ _ _ _ => true
  | Metric.ruleBytes _ _ _ _ _ => true
  | _ => false

/-- Is the sample a `scrape_success` sample? -/
def isSuccessSample : Metric → Bool
  | Metric.scrapeSuccess _ => true
  | _ => false

/-- Is the sample a `scrape_duration_seconds` sample? -/
def isDurationSample : Metric → Bool
  | Metric.scrapeDuration _ => true
  | _ => false

/-- Number of chains in one command result. -/
def tablesChainCount (ts : Tables) : Nat :=
  (ts.map fun p => p.2.length).sum

/-- Number of rules in one table. -/
def tableRuleCount (t : Table) : Nat :=
  (t.map fun p => p.2.rules.length).sum

/-- Number of rules in one command result. -/
def tablesRuleCount (ts : Tables) : Nat :=
  (ts.map fun p => tableRuleCount p.2).sum

/-- Chains a configured command contributes to a scrape: zero unless the
runner succeeds on it. -/
def cmdChainCount (split : Splitter) (runner : Runner) (c : String) : Nat :=
  match stepCommand split runner c with
  | CmdStep.success _ ts => tablesChainCount ts
  | _ => 0

/-- Rules a configured command contributes to a scrape. -/
def cmdRuleCount (split : Splitter) (runner : Runner) (c : String) : Nat :=
  match stepCommand split runner c with
  | CmdStep.success _ ts => tablesRuleCount ts
  | _ => 0

/-- Default/rule samples one configured command contributes: the emission
of its runner result when it succeeds, nothing otherwise. -/
def emitOf (split : Splitter) (runner : Runner) (c : String) : List Metric :=
  match stepCommand split runner c with
  | CmdStep.success command tables => emitTables command tables
  | _ => []

/-- Replace the wall-clock value of a duration sample by zero, so that
sample streams can be compared while ignoring the measured duration. -/
def eraseDuration : Metric → Metric
  | Metric.scrapeDuration _ => Metric.scrapeDuration 0
  | m => m

/-! Equation lemmas for the command loop. -/

/-- Unfolding lemma for one loop iteration. -/
theorem collectLoop_cons (splitter : Splitter) (runner : Runner) (c : String)
    (rest : List String) :
    collectLoop splitter runner (c :: rest)
      = match stepCommand splitter runner c with
        | CmdStep.panicked => ([], LoopExit.panicked)
        | CmdStep.skip => collectLoop splitter runner rest
        | CmdStep.failed => ([Metric.scrapeSuccess 0], LoopExit.failed)
        | CmdStep.success command tables =>
          (emitTables command tables ++ (collectLoop splitter runner rest).1,
           (collectLoop splitter runner rest).2) := rfl

/-- A panicking command stops the loop at once, emitting nothing. -/
theorem collectLoop_cons_panicked (splitter : Splitter) (runner : Runner) (c : String)
    (rest : List String) (h : stepCommand splitter runner c = CmdStep.panicked) :
    collectLoop splitter runner (c :: rest) = ([], LoopExit.panicked) := by
  rw [collectLoop_cons, h]

/-- A skipped command contributes nothing to the loop. -/
theorem collectLoop_cons_skip (splitter : Splitter) (runner : Runner) (c : String)
    (rest : List String) (h : stepCommand splitter runner c = CmdStep.skip) :
    collectLoop splitter runner (c :: rest) = collectLoop splitter runner rest := by
  rw [collectLoop_cons, h]

/-- A failing command ends the loop with the single failure sample. -/
theorem collectLoop_cons_failed (splitter : Splitter) (runner : Runner) (c : String)
    (rest : List String) (h : stepCommand splitter runner c = CmdStep.failed) :
    collectLoop splitter runner (c :: rest)
      = ([Metric.scrapeSuccess 0], LoopExit.failed) := by
  rw [collectLoop_cons, h]

/-- A succeeding command prepends its emission to the rest of the loop. -/
theorem collectLoop_cons_success (splitter : Splitter) (runner : Runner) (c command : String)
    (tables : Tables) (rest : List String)
    (h : stepCommand splitter runner c = CmdStep.success command tables) :
    collectLoop splitter runner (c :: rest)
      = (emitTables command tables ++ (collectLoop splitter runner rest).1,
         (collectLoop splitter runner rest).2) := by
  rw [collectLoop_cons, h]

/-- Unfolding lemma for `collect` from a known loop result. -/
theorem collect_eq_of_loop (splitter : Splitter) (runner : Runner) (dur : ℚ)
    (cmds : List String) (ms : List Metric) (ex : LoopExit)
    (h : collectLoop splitter runner cmds = (ms, ex)) :
    collect splitter runner dur cmds
      = match ex with
        | LoopExit.done => ms ++ [Metric.scrapeSuccess 1, Metric.scrapeDuration dur]
        | LoopExit.failed => ms
        | LoopExit.panicked => ms := by
  cases ex <;> simp [collect, h]

/-! Shape of the samples emitted for one successfully parsed command. -/

/-- Every sample of `emitChain` carries the command label and is a counter
sample (never a success or duration sample). -/
theorem mem_emitChain_shape (command tn cn : String) (ch : Chain) (m : Metric)
    (hm : m ∈ emitChain command tn cn ch) :
    commandLabel m = some command
      ∧ isSuccessSample m = false ∧ isDurationSample m = false := by
  simp only [emitChain, emitRule, List.mem_cons, List.mem_flatMap,
    List.mem_singleton, List.not_mem_nil, or_false] at hm
  rcases hm with rfl | hm
  · exact ⟨rfl, rfl, rfl⟩
  rcases hm with rfl | hm
  · exact ⟨rfl, rfl, rfl⟩
  obtain ⟨r, _, hm⟩ := hm
  rcases hm with rfl | rfl
  · exact ⟨rfl, rfl, rfl⟩
  · exact ⟨rfl, rfl, rfl⟩

/-- Every sample of `emitTables` carries the command label and is a
counter sample. -/
theorem mem_emitTables_shape (command : String) (ts : Tables) (m : Metric)
    (hm : m ∈ emitTables command ts) :
    commandLabel m = some command
      ∧ isSuccessSample m = false ∧ isDurationSample m = false := by
  simp only [emitTables, emitTable, List.mem_flatMap] at hm
  obtain ⟨p, _, q, _, hm⟩ := hm
  exact mem_emitChain_shape command p.1 q.1 q.2 m hm

/-- Chain-level emissions embed into the table-level emission. -/
theorem mem_emitTables_intro (command tn cn : String) (ts : Tables) (t : Table) (ch : Chain)
    (ht : (tn, t) ∈ ts) (hcn : (cn, ch) ∈ t) (m : Metric)
    (hm : m ∈ emitChain command tn cn ch) : m ∈ emitTables command ts := by
  simp only [emitTables, emitTable, List.mem_flatMap]
  exact ⟨(tn, t), ht, (cn, ch), hcn, hm⟩

/-! Sample counts for one successfully parsed command. -/

/-- Sample count of the per-rule block of a chain. -/
theorem flatMap_emitRule_length (command tn cn : String) (rs : List Rule) :
    (rs.flatMap (emitRule command tn cn)).length = 2 * rs.length := by
  induction rs with
  | nil => rfl
  | cons r rs ih =>
    simp only [List.flatMap_cons, List.length_append, List.length_cons, emitRule,
      List.length_nil, ih]
    omega

/-- Sample count of one chain's emission. -/
theorem emitChain_length (command tn cn : String) (ch : Chain) :
    (emitChain command tn cn ch).length = 2 + 2 * ch.rules.length := by
  simp only [emitChain, List.length_cons, flatMap_emitRule_length]
  omega

/-- Sample count of one table's emission. -/
theorem emitTable_length (command tn : String) (t : Table) :
    (emitTable command tn t).length = 2 * t.length + 2 * tableRuleCount t := by
  induction t with
  | nil => rfl
  | cons p t ih =>
    simp only [emitTable, List.flatMap_cons, List.length_append, emitChain_length,
      tableRuleCount, List.map_cons, List.sum_cons, List.length_cons] at *
    omega

/-- Sample count of one command result's emission. -/
theorem emitTables_length (command : String) (ts : Tables) :
    (emitTables command ts).length = 2 * tablesChainCount ts + 2 * tablesRuleCount ts := by
  induction ts with
  | nil => rfl
  | cons p ts ih =>
    simp only [emitTables, List.flatMap_cons, List.length_append, emitTable_length,
      tablesChainCount, tablesRuleCount, List.map_cons, List.sum_cons] at *
    omega

/-- Counter-kind counts of the per-rule block of a chain. -/
theorem flatMap_emitRule_counts (command tn cn : String) (rs : List Rule) :
    (rs.flatMap (emitRule command tn cn)).countP isDefaultSample = 0
      ∧ (rs.flatMap (emitRule command tn cn)).countP isRuleSample = 2 * rs.length := by
  induction rs with
  | nil => exact ⟨rfl, rfl⟩
  | cons r rs ih =>
    obtain ⟨h1, h2⟩ := ih
    simp [List.flatMap_cons, List.countP_append, h1, h2, emitRule,
      List.countP_cons, List.countP_nil, List.length_cons, isDefaultSample, isRuleSample]
    omega

/-- Counter-kind counts of one chain's emission. -/
theorem emitChain_counts (command tn cn : String) (ch : Chain) :
    (emitChain command tn cn ch).countP isDefaultSample = 2
      ∧ (emitChain command tn cn ch).countP isRuleSample = 2 * ch.rules.length := by
  obtain ⟨h1, h2⟩ := flatMap_emitRule_counts command tn cn ch.rules
  simp [emitChain, List.countP_cons, h1, h2, isDefaultSample, isRuleSample]

/-- Counter-kind counts of one table's emission. -/
theorem emitTable_counts (command tn : String) (t : Table) :
    (emitTable command tn t).countP isDefaultSample = 2 * t.length
      ∧ (emitTable command tn t).countP isRuleSample = 2 * tableRuleCount t := by
  induction t with
  | nil => exact ⟨rfl, rfl⟩
  | cons p t ih =>
    obtain ⟨h1, h2⟩ := ih
    obtain ⟨g1, g2⟩ := emitChain_counts command tn p.1 p.2
    simp only [emitTable, List.flatMap_cons, List.countP_append, tableRuleCount,
      List.map_cons, List.sum_cons, List.length_cons] at *
    omega

/-- Counter-kind counts of one command result's emission. -/
theorem emitTables_counts (command : String) (ts : Tables) :
    (emitTables command ts).countP isDefaultSample = 2 * tablesChainCount ts
      ∧ (emitTables command ts).countP isRuleSample = 2 * tablesRuleCount ts := by
  induction ts with
  | nil => exact ⟨rfl, rfl⟩
  | cons p ts ih =>
    obtain ⟨h1, h2⟩ := ih
    obtain ⟨g1, g2⟩ := emitTable_counts command p.1 p.2
    simp only [emitTables, List.flatMap_cons, List.countP_append, tablesChainCount,
      tablesRuleCount, List.map_cons, List.sum_cons] at *
    omega

/-! The structure of a successful step and of failure-free prefixes. -/

/-- A successful step comes from a non-empty token list whose trimmed head
is the command label, with the runner succeeding on the remaining
tokens. -/
theorem stepCommand_success_shape (splitter : Splitter) (runner : Runner)
    (c command : String) (tables : Tables)
    (h : stepCommand splitter runner c = CmdStep.success command tables) :
    ∃ t0 args, (splitter c).1 = t0 :: args ∧ command = trimWS t0
      ∧ runner (trimWS t0) args = some tables := by
  unfold stepCommand at h
  split at h
  · exact CmdStep.noConfusion h
  next t0 args heq =>
    simp only at h
    split at h
    · exact CmdStep.noConfusion h
    · split at h
      · exact CmdStep.noConfusion h
      next ts hr =>
        injection h with h1 h2
        exact ⟨t0, args, heq, h1.symm, h2 ▸ hr⟩

/-- Samples a single command contributes are counter samples labeled with
the trimmed head token of its split. -/
theorem mem_emitOf_shape (splitter : Splitter) (runner : Runner) (c : String) (m : Metric)
    (hm : m ∈ emitOf splitter runner c) :
    isSuccessSample m = false ∧ isDurationSample m = false
      ∧ ∃ t0 args, (splitter c).1 = t0 :: args ∧ commandLabel m = some (trimWS t0) := by
  unfold emitOf at hm
  cases hstep : stepCommand splitter runner c with
  | success command tables =>
    rw [hstep] at hm
    obtain ⟨hlabel, hsucc, hdur⟩ := mem_emitTables_shape command tables m hm
    obtain ⟨t0, args, hsp, hcmd, _⟩ := stepCommand_success_shape splitter runner c command tables hstep
    exact ⟨hsucc, hdur, t0, args, hsp, hcmd ▸ hlabel⟩
  | panicked => rw [hstep] at hm; exact absurd hm (List.not_mem_nil m)
  | skip => rw [hstep] at hm; exact absurd hm (List.not_mem_nil m)
  | failed => rw [hstep] at hm; exact absurd hm (List.not_mem_nil m)

/-- Processing a prefix of commands none of which fails or panics yields
exactly the per-command emissions of that prefix, followed by whatever the
remaining commands produce. -/
theorem collectLoop_ok_pre (splitter : Splitter) (runner : Runner)
    (pre rest : List String)
    (hpre : ∀ c ∈ pre, stepCommand splitter runner c ≠ CmdStep.failed
      ∧ stepCommand splitter runner c ≠ CmdStep.panicked) :
    collectLoop splitter runner (pre ++ rest)
      = (pre.flatMap (emitOf splitter runner) ++ (collectLoop splitter runner rest).1,
         (collectLoop splitter runner rest).2) := by
  induction pre with
  | nil => simp [collectLoop]
  | cons c pre ih =>
    have hc := hpre c (List.mem_cons_self c pre)
    have hih := ih fun d hd => hpre d (List.mem_cons_of_mem c hd)
    rw [List.cons_append]
    cases hstep : stepCommand splitter runner c with
    | panicked => exact absurd hstep hc.2
    | failed => exact absurd hstep hc.1
    | skip =>
      rw [collectLoop_cons_skip splitter runner c (pre ++ rest) hstep, hih]
      simp [emitOf, List.flatMap_cons, hstep]
    | success command tables =>
      rw [collectLoop_cons_success splitter runner c command tables (pre ++ rest) hstep, hih]
      simp [emitOf, List.flatMap_cons, hstep, List.append_assoc]

/-- A scrape whose commands up to the first failure neither fail nor panic
emits exactly the successful prefix's samples followed by the single
failure sample (the early return at line 102 of the source). -/
theorem collect_failed_eq (splitter : Splitter) (runner : Runner) (dur : ℚ)
    (pre post : List String) (c : String)
    (hpre : ∀ p ∈ pre, stepCommand splitter runner p ≠ CmdStep.failed
      ∧ stepCommand splitter runner p ≠ CmdStep.panicked)
    (hc : stepCommand splitter runner c = CmdStep.failed) :
    collect splitter runner dur (pre ++ c :: post)
      = pre.flatMap (emitOf splitter runner) ++ [Metric.scrapeSuccess 0] := by
  have hloop := collectLoop_ok_pre splitter runner pre (c :: post) hpre
  rw [collectLoop_cons_failed splitter runner c post hc] at hloop
  exact collect_eq_of_loop splitter runner dur (pre ++ c :: post) _ LoopExit.failed hloop

/-- A scrape all of whose commands are skipped or succeed emits the
per-command samples, then `scrape_success = 1` and the duration sample. -/
theorem collect_done_eq (splitter : Splitter) (runner : Runner) (dur : ℚ)
    (cmds : List String)
    (hok : ∀ c ∈ cmds, stepCommand splitter runner c ≠ CmdStep.failed
      ∧ stepCommand splitter runner c ≠ CmdStep.panicked) :
    collect splitter runner dur cmds
      = cmds.flatMap (emitOf splitter runner)
          ++ [Metric.scrapeSuccess 1, Metric.scrapeDuration dur] := by
  have hloop := collectLoop_ok_pre splitter runner cmds [] hok
  rw [List.append_nil] at hloop
  simp only [collectLoop, List.append_nil] at hloop
  exact collect_eq_of_loop splitter runner dur cmds _ LoopExit.done hloop

/-- Removing a skipped command from anywhere in the command list does not
change the loop's output at all. -/
theorem collectLoop_skip_removed (splitter : Splitter) (runner : Runner)
    (pre post : List String) (c : String)
    (hskip : stepCommand splitter runner c = CmdStep.skip) :
    collectLoop splitter runner (pre ++ c :: post)
      = collectLoop splitter runner (pre ++ post) := by
  induction pre with
  | nil => exact collectLoop_cons_skip splitter runner c post hskip
  | cons p pre ih =>
    rw [List.cons_append, List.cons_append,
      collectLoop_cons splitter runner p (pre ++ c :: post),
      collectLoop_cons splitter runner p (pre ++ post), ih]

/-- Samples sent by the loop are part of the final sample stream. -/
theorem mem_collect_of_mem_loop (splitter : Splitter) (runner : Runner) (dur : ℚ)
    (cmds : List String) (m : Metric)
    (hm : m ∈ (collectLoop splitter runner cmds).1) :
    m ∈ collect splitter runner dur cmds := by
  unfold collect
  cases hloop : collectLoop splitter runner cmds with
  | mk ms ex =>
    rw [hloop] at hm
    cases ex <;> simp_all [List.mem_append]

/-- Every sample of a successful command's emission appears in the scrape
stream when the commands before it neither fail nor panic. -/
theorem mem_collect_of_success (splitter : Splitter) (runner : Runner) (dur : ℚ)
    (pre post : List String) (c command : String) (tables : Tables)
    (hpre : ∀ p ∈ pre, stepCommand splitter runner p ≠ CmdStep.failed
      ∧ stepCommand splitter runner p ≠ CmdStep.panicked)
    (hc : stepCommand splitter runner c = CmdStep.success command tables)
    (m : Metric) (hm : m ∈ emitTables command tables) :
    m ∈ collect splitter runner dur (pre ++ c :: post) := by
  apply mem_collect_of_mem_loop
  rw [collectLoop_ok_pre splitter runner pre (c :: post) hpre,
    collectLoop_cons_success splitter runner c command tables post hc]
  simp [List.mem_append, hm]

/-! Permutation invariance: the Go table and chain structures are maps,
whose enumeration order is unspecified, so sample production must yield
the same multiset of samples for any two enumerations of the same
structure. -/

/-- Two table entries describing the same table up to chain enumeration
order: same name, chain lists that are permutations. -/
def ChainsPermEntry (a b : String × Table) : Prop :=
  a.1 = b.1 ∧ a.2.Perm b.2

/-- Two command results describing the same structure up to map
enumeration order: permute the tables, then pointwise permute each
table's chains. -/
def TablesPerm (t1 t2 : Tables) : Prop :=
  ∃ mid, t1.Perm mid ∧ List.Forall₂ ChainsPermEntry mid t2

/-- Lift `TablesPerm` to the runner's optional result: both runs fail, or
both succeed with the same structure up to enumeration order. -/
def runnerPermOpt : Option Tables → Option Tables → Prop
  | none, none => True
  | some a, some b => TablesPerm a b
  | _, _ => False

/-- Chain enumeration order permutes a table's emission. -/
theorem emitTable_perm (command tn : String) (t1 t2 : Table) (h : t1.Perm t2) :
    (emitTable command tn t1).Perm (emitTable command tn t2) :=
  h.flatMap_right _

/-- Pointwise chain permutations permute the whole emission. -/
theorem emitTables_perm_forall₂ (command : String) (ts1 ts2 : Tables)
    (h : List.Forall₂ ChainsPermEntry ts1 ts2) :
    (emitTables command ts1).Perm (emitTables command ts2) := by
  induction h with
  | nil => exact List.Perm.refl _
  | @cons a b l₁ l₂ hab _ ih =>
    simp only [emitTables, List.flatMap_cons]
    rw [hab.1]
    exact (emitTable_perm command b.1 a.2 b.2 hab.2).append ih

/-- Enumeration order of the same parsed structure permutes the
emission. -/
theorem emitTables_tablesPerm (command : String) (t1 t2 : Tables)
    (h : TablesPerm t1 t2) :
    (emitTables command t1).Perm (emitTables command t2) := by
  obtain ⟨mid, hperm, hf⟩ := h
  exact (hperm.flatMap_right _).trans (emitTables_perm_forall₂ command mid t2 hf)

/-- How two steps of the loop relate when the two runners agree up to
enumeration order. -/
def stepRel : CmdStep → CmdStep → Prop
  | CmdStep.panicked, CmdStep.panicked => True
  | CmdStep.skip, CmdStep.skip => True
  | CmdStep.failed, CmdStep.failed => True
  | CmdStep.success c1 t1, CmdStep.success c2 t2 => c1 = c2 ∧ TablesPerm t1 t2
  | _, _ => False

/-- Step classification is preserved by runners agreeing up to
enumeration order. -/
theorem stepCommand_rel (splitter : Splitter) (runner1 runner2 : Runner) (c : String)
    (hrel : ∀ command args, runnerPermOpt (runner1 command args) (runner2 command args)) :
    stepRel (stepCommand splitter runner1 c) (stepCommand splitter runner2 c) := by
  unfold stepCommand
  cases hsp : (splitter c).1 with
  | nil => exact trivial
  | cons t0 args =>
    simp only
    by_cases hlen : (trimWS t0).length < 1
    · simp only [if_pos hlen]
      exact trivial
    · simp only [if_neg hlen]
      have h := hrel (trimWS t0) args
      cases h1 : runner1 (trimWS t0) args with
      | none =>
        cases h2 : runner2 (trimWS t0) args with
        | none => exact trivial
        | some ts2 => rw [h1, h2] at h; exact absurd h id
      | some ts1 =>
        cases h2 : runner2 (trimWS t0) args with
        | none => rw [h1, h2] at h; exact absurd h id
        | some ts2 => rw [h1, h2] at h; exact ⟨rfl, h⟩

/-- The loop emits the same multiset of samples and ends the same way for
two runners agreeing up to enumeration order. -/
theorem collectLoop_perm (splitter : Splitter) (runner1 runner2 : Runner)
    (cmds : List String)
    (hrel : ∀ command args, runnerPermOpt (runner1 command args) (runner2 command args)) :
    (collectLoop splitter runner1 cmds).1.Perm (collectLoop splitter runner2 cmds).1
      ∧ (collectLoop splitter runner1 cmds).2 = (collectLoop splitter runner2 cmds).2 := by
  induction cmds with
  | nil => exact ⟨List.Perm.refl _, rfl⟩
  | cons c rest ih =>
    have hstep := stepCommand_rel splitter runner1 runner2 c hrel
    cases h1 : stepCommand splitter runner1 c <;>
      cases h2 : stepCommand splitter runner2 c <;>
      rw [h1, h2] at hstep <;>
      simp only [stepRel] at hstep
    · rw [collectLoop_cons_panicked splitter runner1 c rest h1,
        collectLoop_cons_panicked splitter runner2 c rest h2]
      exact ⟨List.Perm.refl _, rfl⟩
    · rw [collectLoop_cons_skip splitter runner1 c rest h1,
        collectLoop_cons_skip splitter runner2 c rest h2]
      exact ih
    · rw [collectLoop_cons_failed splitter runner1 c rest h1,
        collectLoop_cons_failed splitter runner2 c rest h2]
      exact ⟨List.Perm.refl _, rfl⟩
    · next command1 tables1 command2 tables2 =>
      rw [collectLoop_cons_success splitter runner1 c command1 tables1 rest h1,
        collectLoop_cons_success splitter runner2 c command2 tables2 rest h2]
      refine ⟨?_, ih.2⟩
      rw [hstep.1]
      exact (emitTables_tablesPerm command2 tables1 tables2 hstep.2).append ih.1

/-- Per-command sample count. -/
theorem emitOf_length (splitter : Splitter) (runner : Runner) (c : String) :
    (emitOf splitter runner c).length
      = 2 * cmdChainCount splitter runner c + 2 * cmdRuleCount splitter runner c := by
  unfold emitOf cmdChainCount cmdRuleCount
  cases stepCommand splitter runner c <;> simp [emitTables_length]

/-- Per-command counter-kind counts. -/
theorem emitOf_counts (splitter : Splitter) (runner : Runner) (c : String) :
    (emitOf splitter runner c).countP isDefaultSample = 2 * cmdChainCount splitter runner c
      ∧ (emitOf splitter runner c).countP isRuleSample = 2 * cmdRuleCount splitter runner c := by
  unfold emitOf cmdChainCount cmdRuleCount
  cases stepCommand splitter runner c <;>
    simp [(emitTables_counts _ _).1, (emitTables_counts _ _).2]

/-- Total sample count of all per-command emissions. -/
theorem flatMap_emitOf_length (splitter : Splitter) (runner : Runner) (cmds : List String) :
    (cmds.flatMap (emitOf splitter runner)).length
      = 2 * (cmds.map (cmdChainCount splitter runner)).sum
        + 2 * (cmds.map (cmdRuleCount splitter runner)).sum := by
  induction cmds with
  | nil => rfl
  | cons c cmds ih =>
    simp only [List.flatMap_cons, List.length_append, emitOf_length, List.map_cons,
      List.sum_cons, ih]
    omega

/-- Total counter-kind counts of all per-command emissions. -/
theorem flatMap_emitOf_counts (splitter : Splitter) (runner : Runner) (cmds : List String) :
    (cmds.flatMap (emitOf splitter runner)).countP isDefaultSample
        = 2 * (cmds.map (cmdChainCount splitter runner)).sum
      ∧ (cmds.flatMap (emitOf splitter runner)).countP isRuleSample
        = 2 * (cmds.map (cmdRuleCount splitter runner)).sum := by
  induction cmds with
  | nil => exact ⟨rfl, rfl⟩
  | cons c cmds ih =>
    obtain ⟨h1, h2⟩ := ih
    obtain ⟨g1, g2⟩ := emitOf_counts splitter runner c
    simp only [List.flatMap_cons, List.countP_append, List.map_cons, List.sum_cons,
      h1, h2, g1, g2]
    omega

/-- Per-command emissions contain no success and no duration samples. -/
theorem flatMap_emitOf_filter (splitter : Splitter) (runner : Runner) (cmds : List String) :
    (cmds.flatMap (emitOf splitter runner)).filter isSuccessSample = []
      ∧ (cmds.flatMap (emitOf splitter runner)).filter isDurationSample = [] := by
  refine ⟨List.filter_eq_nil_iff.mpr fun m hm => ?_,
    List.filter_eq_nil_iff.mpr fun m hm => ?_⟩
  · obtain ⟨p, _, hmem⟩ := List.mem_flatMap.mp hm
    simp [(mem_emitOf_shape splitter runner p m hmem).1]
  · obtain ⟨p, _, hmem⟩ := List.mem_flatMap.mp hm
    simp [(mem_emitOf_shape splitter runner p m hmem).2.1]

/-! Concrete fixtures used in witnesses and in the concrete scenario of
the specification (section 8): a splitter behaving like shlex on the
default configuration strings, and a runner returning the scenario's
table. -/

/-- The chain of the specification's concrete scenario. -/
def exChain : Chain :=
  ⟨"ACCEPT", 10, 1000, [⟨"-A INPUT -j ACCEPT", 4, 400⟩]⟩

/-- The command result of the specification's concrete scenario. -/
def exTables : Tables := [("filter", [("INPUT", exChain)])]

/-- A splitter with the shlex behaviour on the strings used in the
fixtures: the default command splits into executable and flag, the
two-quote disabled marker splits into one empty token, anything else is a
single token, and no split fails. -/
def exSplit : Splitter := fun s =>
  if s = "iptables-save -c" then (["iptables-save", "-c"], false)
  else if s = "\x27\x27" then ([""], false)
  else ([s], false)

/-- A runner that recognises the scenario executable and fails on
anything else. -/
def exRunner : Runner := fun command _ =>
  if command = "iptables-save" then some exTables else none

/-! The claims. -/

/-- C1: when some command k fails in the counter-dump runner (and the
commands before it were skipped or succeeded), the scrape stream is
exactly the emissions of the commands before k followed by a single
`scrape_success = 0` sample: the failure sample appears exactly once,
nothing after k contributes, earlier successful commands' samples are
kept, and emission stops immediately. -/
theorem collect_failure_semantics (splitter : Splitter) (runner : Runner) (dur : ℚ)
    (pre post : List String) (c : String)
    (hpre : ∀ p ∈ pre, stepCommand splitter runner p ≠ CmdStep.failed
      ∧ stepCommand splitter runner p ≠ CmdStep.panicked)
    (hc : stepCommand splitter runner c = CmdStep.failed) :
    collect splitter runner dur (pre ++ c :: post)
        = pre.flatMap (emitOf splitter runner) ++ [Metric.scrapeSuccess 0]
      ∧ (collect splitter runner dur (pre ++ c :: post)).filter isSuccessSample
        = [Metric.scrapeSuccess 0] := by
  have heq := collect_failed_eq splitter runner dur pre post c hpre hc
  refine ⟨heq, ?_⟩
  rw [heq, List.filter_append]
  have hnil : (pre.flatMap (emitOf splitter runner)).filter isSuccessSample = [] := by
    refine List.filter_eq_nil_iff.mpr fun m hm => ?_
    obtain ⟨p, _, hmem⟩ := List.mem_flatMap.mp hm
    simp [(mem_emitOf_shape splitter runner p m hmem).1]
  rw [hnil]
  rfl

/-- Witness for C1: the default command succeeds, the ip6tables command
fails, and the stream is the four counter samples of the first command
followed by a single failure sample. -/
theorem collect_failure_semantics_witness :
    collect exSplit exRunner 0 (["iptables-save -c"] ++ "ip6tables-save -c" :: [])
        = ["iptables-save -c"].flatMap (emitOf exSplit exRunner) ++ [Metric.scrapeSuccess 0]
      ∧ (collect exSplit exRunner 0
          (["iptables-save -c"] ++ "ip6tables-save -c" :: [])).filter isSuccessSample
        = [Metric.scrapeSuccess 0] :=
  collect_failure_semantics exSplit exRunner 0 ["iptables-save -c"] [] "ip6tables-save -c"
    (by decide) (by decide)

/-- C2: when every command is skipped or succeeds, the stream consists of
2·M default-counter samples and 2·R rule-counter samples (M, R the total
chain and rule counts over all commands' results), plus exactly one
`scrape_success = 1` sample and exactly one duration sample with the
non-negative elapsed time (non-negativity of `time.Since` comes from Go's
monotonic clock and enters as a hypothesis on the measured duration):
2·M + 2·R + 2 samples in total. -/
theorem collect_success_counts (splitter : Splitter) (runner : Runner) (dur : ℚ)
    (cmds : List String)
    (hok : ∀ c ∈ cmds, stepCommand splitter runner c ≠ CmdStep.failed
      ∧ stepCommand splitter runner c ≠ CmdStep.panicked)
    (hdur : 0 ≤ dur) :
    (collect splitter runner dur cmds).length
        = 2 * (cmds.map (cmdChainCount splitter runner)).sum
          + 2 * (cmds.map (cmdRuleCount splitter runner)).sum + 2
      ∧ (collect splitter runner dur cmds).countP isDefaultSample
        = 2 * (cmds.map (cmdChainCount splitter runner)).sum
      ∧ (collect splitter runner dur cmds).countP isRuleSample
        = 2 * (cmds.map (cmdRuleCount splitter runner)).sum
      ∧ (collect splitter runner dur cmds).filter isSuccessSample
        = [Metric.scrapeSuccess 1]
      ∧ (collect splitter runner dur cmds).filter isDurationSample
        = [Metric.scrapeDuration dur]
      ∧ 0 ≤ dur := by
  have heq := collect_done_eq splitter runner dur cmds hok
  obtain ⟨hf1, hf2⟩ := flatMap_emitOf_filter splitter runner cmds
  obtain ⟨hc1, hc2⟩ := flatMap_emitOf_counts splitter runner cmds
  refine ⟨?_, ?_, ?_, ?_, ?_, hdur⟩
  · rw [heq, List.length_append, flatMap_emitOf_length]
    simp
  · rw [heq, List.countP_append, hc1]
    simp [isDefaultSample]
  · rw [heq, List.countP_append, hc2]
    simp [isRuleSample]
  · rw [heq, List.filter_append, hf1]
    rfl
  · rw [heq, List.filter_append, hf2]
    rfl

/-- Witness for C2: the default command against the scenario runner, one
chain and one rule, 2 + 2 + 2 samples. -/
theorem collect_success_counts_witness :
    (collect exSplit exRunner 1 ["iptables-save -c"]).length
        = 2 * (["iptables-save -c"].map (cmdChainCount exSplit exRunner)).sum
          + 2 * (["iptables-save -c"].map (cmdRuleCount exSplit exRunner)).sum + 2
      ∧ (collect exSplit exRunner 1 ["iptables-save -c"]).countP isDefaultSample
        = 2 * (["iptables-save -c"].map (cmdChainCount exSplit exRunner)).sum
      ∧ (collect exSplit exRunner 1 ["iptables-save -c"]).countP isRuleSample
        = 2 * (["iptables-save -c"].map (cmdRuleCount exSplit exRunner)).sum
      ∧ (collect exSplit exRunner 1 ["iptables-save -c"]).filter isSuccessSample
        = [Metric.scrapeSuccess 1]
      ∧ (collect exSplit exRunner 1 ["iptables-save -c"]).filter isDurationSample
        = [Metric.scrapeDuration 1]
      ∧ (0 : ℚ) ≤ 1 :=
  collect_success_counts exSplit exRunner 1 ["iptables-save -c"] (by decide) (by norm_num)

/-- C3: a command whose split yields an empty first token once trimmed is
skipped: removing it from the command list leaves the sample stream
unchanged (it contributes no samples and no label values), and processing
continues with the remaining commands.  An empty configured command
string is turned by the configuration step into the two-quote marker,
which (splitting into one empty token, as shlex does) lands in exactly
this skip case. -/
theorem collect_skips_disabled (splitter : Splitter) (runner : Runner) (dur : ℚ)
    (pre post : List String) (c : String)
    (hskip : stepCommand splitter runner c = CmdStep.skip) :
    collect splitter runner dur (pre ++ c :: post) = collect splitter runner dur (pre ++ post)
      ∧ ∀ s : String, s.length = 0 → (splitter (configureCommand s)).1 = [""] →
          stepCommand splitter runner (configureCommand s) = CmdStep.skip := by
  constructor
  · unfold collect
    rw [collectLoop_skip_removed splitter runner pre post c hskip]
  · intro s _ hsp
    unfold stepCommand
    rw [hsp]
    rfl

/-- Witness for C3: the disabled-slot marker is skipped and drops out of
the stream; the empty configured string maps into the skip case. -/
theorem collect_skips_disabled_witness :
    collect exSplit exRunner 0 ("\x27\x27" :: ["iptables-save -c"])
        = collect exSplit exRunner 0 ["iptables-save -c"]
      ∧ stepCommand exSplit exRunner (configureCommand "") = CmdStep.skip :=
  ⟨(collect_skips_disabled exSplit exRunner 0 [] ["iptables-save -c"] "\x27\x27"
      (by decide)).1,
   (collect_skips_disabled exSplit exRunner 0 [] ["iptables-save -c"] "\x27\x27"
      (by decide)).2 "" (by decide) (by decide)⟩

/-- A small command result used by the split-failure counterexample. -/
def cexTables : Tables := [("filter", [("INPUT", ⟨"ACCEPT", 1, 2, []⟩)])]

/-- A splitter that fails on two inputs, with the two shapes shlex
failures can take: an unterminated quote after a completed word returns
the completed words plus the error; an unterminated quote with no
completed word returns no tokens plus the error. -/
def cexSplit : Splitter := fun s =>
  if s = "a \x27b" then (["a"], true)
  else if s = "\x27" then ([], true)
  else ([s], false)

/-- A runner that always succeeds, to show the runner is still invoked
after a split failure. -/
def cexRunner : Runner := fun _ _ => some cexTables

/-- C4 counterexample: on a command whose token-splitting fails, sample
production does NOT emit `scrape_success = 0` and does NOT terminate the
scrape.  With failing input "a 'b" the error is ignored, the runner is
invoked on the partial token list, its samples and `scrape_success = 1`
are emitted; with failing input "'" (no completed token) the scrape
panics and emits nothing at all, in particular no failure sample. -/
theorem collect_split_failure_cex :
    ((cexSplit "a \x27b").2 = true
        ∧ collect cexSplit cexRunner 0 ["a \x27b"] ≠ [Metric.scrapeSuccess 0]
        ∧ Metric.scrapeSuccess 0 ∉ collect cexSplit cexRunner 0 ["a \x27b"]
        ∧ Metric.scrapeSuccess 1 ∈ collect cexSplit cexRunner 0 ["a \x27b"]
        ∧ Metric.defaultPackets "a" "filter" "INPUT" "ACCEPT" 1
            ∈ collect cexSplit cexRunner 0 ["a \x27b"])
      ∧ ((cexSplit "\x27").2 = true
        ∧ collect cexSplit cexRunner 0 ["\x27"] = []) := by
  decide

/-- C4 amended: the split error is discarded (line 93 of the source), so
sample production behaves exactly as it would had splitting reported
success with the same tokens; when the splitter returns no tokens at all
the scrape panics at the `_command[0]` index (line 94), so the loop stops
with nothing emitted for that command and no failure sample. -/
theorem collect_ignores_split_error (splitter : Splitter) (runner : Runner) (dur : ℚ)
    (cmds : List String) :
    collect splitter runner dur cmds
        = collect (fun s => ((splitter s).1, false)) runner dur cmds
      ∧ ∀ c : String, (splitter c).1 = [] →
          stepCommand splitter runner c = CmdStep.panicked := by
  constructor
  · have hstep : ∀ c, stepCommand splitter runner c
        = stepCommand (fun s => ((splitter s).1, false)) runner c := fun c => rfl
    have hloop : ∀ l, collectLoop splitter runner l
        = collectLoop (fun s => ((splitter s).1, false)) runner l := by
      intro l
      induction l with
      | nil => rfl
      | cons c rest ih =>
        rw [collectLoop_cons, collectLoop_cons, hstep c, ih]
    unfold collect
    rw [hloop]
  · intro c hc
    unfold stepCommand
    rw [hc]

/-- Witness for the amended C4. -/
theorem collect_ignores_split_error_witness :
    collect cexSplit cexRunner 0 ["\x27"]
        = collect (fun s => ((cexSplit s).1, false)) cexRunner 0 ["\x27"]
      ∧ stepCommand cexSplit cexRunner "\x27" = CmdStep.panicked :=
  ⟨(collect_ignores_split_error cexSplit cexRunner 0 ["\x27"]).1,
   (collect_ignores_split_error cexSplit cexRunner 0 ["\x27"]).2 "\x27" (by decide)⟩

/-- C5: descriptor listing is stateless and idempotent: whatever the
scrape history, it returns the same six descriptors, in source order,
with the family names and label sets of section 4.1 of the
specification. -/
theorem describe_stateless_six (h1 h2 : List (List Metric)) :
    describe h1 = describe h2
      ∧ (describe h1).length = 6
      ∧ (describe h1).map Desc.name
        = ["iptables_scrape_duration_seconds", "iptables_scrape_success",
           "iptables_default_bytes_total", "iptables_default_packets_total",
           "iptables_rule_bytes_total", "iptables_rule_packets_total"]
      ∧ (describe h1).map Desc.labels
        = [[], [], ["command", "table", "chain", "policy"],
           ["command", "table", "chain", "policy"],
           ["command", "table", "chain", "rule"],
           ["command", "table", "chain", "rule"]] :=
  ⟨rfl, rfl, rfl, rfl⟩

/-- C6: for a successfully parsed command result, every chain of every
table contributes its `default_packets_total` and `default_bytes_total`
samples labeled {command, table, chain, policy} with the chain's default
counters, and every rule contributes its `rule_packets_total` and
`rule_bytes_total` samples labeled {command, table, chain, rule} with its
counters — all present in the scrape stream.  On the specification's
concrete scenario the stream is exactly the four counter samples with
values 10, 1000, 4, 400 followed by the success and duration samples. -/
theorem collect_success_emission (splitter : Splitter) (runner : Runner) (dur : ℚ)
    (pre post : List String) (c command : String) (tables : Tables)
    (hpre : ∀ p ∈ pre, stepCommand splitter runner p ≠ CmdStep.failed
      ∧ stepCommand splitter runner p ≠ CmdStep.panicked)
    (hc : stepCommand splitter runner c = CmdStep.success command tables)
    (tn : String) (t : Table) (cn : String) (ch : Chain)
    (ht : (tn, t) ∈ tables) (hcn : (cn, ch) ∈ t) :
    (Metric.defaultPackets command tn cn ch.policy ch.packets
          ∈ collect splitter runner dur (pre ++ c :: post)
      ∧ Metric.defaultBytes command tn cn ch.policy ch.bytes
          ∈ collect splitter runner dur (pre ++ c :: post)
      ∧ ∀ r ∈ ch.rules,
          Metric.rulePackets command tn cn r.rule r.packets
              ∈ collect splitter runner dur (pre ++ c :: post)
            ∧ Metric.ruleBytes command tn cn r.rule r.bytes
              ∈ collect splitter runner dur (pre ++ c :: post))
    ∧ collect exSplit exRunner 1 ["iptables-save -c"]
        = [Metric.defaultPackets "iptables-save" "filter" "INPUT" "ACCEPT" 10,
           Metric.defaultBytes "iptables-save" "filter" "INPUT" "ACCEPT" 1000,
           Metric.rulePackets "iptables-save" "filter" "INPUT" "-A INPUT -j ACCEPT" 4,
           Metric.ruleBytes "iptables-save" "filter" "INPUT" "-A INPUT -j ACCEPT" 400,
           Metric.scrapeSuccess 1, Metric.scrapeDuration 1] := by
  refine ⟨⟨?_, ?_, fun r hr => ⟨?_, ?_⟩⟩, by decide⟩
  · refine mem_collect_of_success splitter runner dur pre post c command tables hpre hc _
      (mem_emitTables_intro command tn cn tables t ch ht hcn _ ?_)
    exact List.mem_cons_self _ _
  · refine mem_collect_of_success splitter runner dur pre post c command tables hpre hc _
      (mem_emitTables_intro command tn cn tables t ch ht hcn _ ?_)
    exact List.mem_cons_of_mem _ (List.mem_cons_self _ _)
  · refine mem_collect_of_success splitter runner dur pre post c command tables hpre hc _
      (mem_emitTables_intro command tn cn tables t ch ht hcn _ ?_)
    unfold emitChain
    refine List.mem_cons_of_mem _ (List.mem_cons_of_mem _ ?_)
    exact List.mem_flatMap.mpr ⟨r, hr, List.mem_cons_self _ _⟩
  · refine mem_collect_of_success splitter runner dur pre post c command tables hpre hc _
      (mem_emitTables_intro command tn cn tables t ch ht hcn _ ?_)
    unfold emitChain
    refine List.mem_cons_of_mem _ (List.mem_cons_of_mem _ ?_)
    exact List.mem_flatMap.mpr ⟨r, hr, List.mem_cons_of_mem _ (List.mem_cons_self _ _)⟩

/-- Witness for C6: the scenario's default-packets sample is in the
stream. -/
theorem collect_success_emission_witness :
    Metric.defaultPackets "iptables-save" "filter" "INPUT" "ACCEPT" 10
      ∈ collect exSplit exRunner 1 ["iptables-save -c"] :=
  ((collect_success_emission exSplit exRunner 1 [] [] "iptables-save -c" "iptables-save"
      exTables (by decide) (by decide) "filter" [("INPUT", exChain)] "INPUT" exChain
      (by decide) (by decide)).1).1

/-- Every loop sample is the failure sample or carries as command label
the trimmed head token of the split of one of the processed commands. -/
theorem mem_loop_label (splitter : Splitter) (runner : Runner) (cmds : List String)
    (m : Metric) (hm : m ∈ (collectLoop splitter runner cmds).1) :
    m = Metric.scrapeSuccess 0
      ∨ ∃ c, c ∈ cmds ∧ ∃ t0 args, (splitter c).1 = t0 :: args
          ∧ commandLabel m = some (trimWS t0) := by
  induction cmds with
  | nil => exact absurd hm (List.not_mem_nil m)
  | cons c rest ih =>
    cases hst : stepCommand splitter runner c with
    | panicked =>
      rw [collectLoop_cons_panicked splitter runner c rest hst] at hm
      exact absurd hm (List.not_mem_nil m)
    | skip =>
      rw [collectLoop_cons_skip splitter runner c rest hst] at hm
      rcases ih hm with h | ⟨d, hd, hrest⟩
      · exact Or.inl h
      · exact Or.inr ⟨d, List.mem_cons_of_mem c hd, hrest⟩
    | failed =>
      rw [collectLoop_cons_failed splitter runner c rest hst] at hm
      simp only [List.mem_singleton] at hm
      exact Or.inl hm
    | success command tables =>
      rw [collectLoop_cons_success splitter runner c command tables rest hst] at hm
      rcases List.mem_append.mp hm with hm | hm
      · obtain ⟨hl, _, _⟩ := mem_emitTables_shape command tables m hm
        obtain ⟨t0, args, hsp, hcmd, _⟩ :=
          stepCommand_success_shape splitter runner c command tables hst
        exact Or.inr ⟨c, List.mem_cons_self c rest, t0, args, hsp, by rw [hl, hcmd]⟩
      · rcases ih hm with h | ⟨d, hd, hrest⟩
        · exact Or.inl h
        · exact Or.inr ⟨d, List.mem_cons_of_mem c hd, hrest⟩

/-- Every scrape sample comes from the loop or is one of the two final
meta samples. -/
theorem mem_collect_cases (splitter : Splitter) (runner : Runner) (dur : ℚ)
    (cmds : List String) (m : Metric) (hm : m ∈ collect splitter runner dur cmds) :
    m ∈ (collectLoop splitter runner cmds).1
      ∨ m = Metric.scrapeSuccess 1 ∨ m = Metric.scrapeDuration dur := by
  unfold collect at hm
  cases hl : collectLoop splitter runner cmds with
  | mk ms ex => cases ex <;> simp_all [List.mem_append]

/-- C7: the timeseries identity of a rule sample is exactly the label
tuple (command, table, chain, verbatim rule text): the keys of two rule
samples coincide if and only if all four labels coincide — so rules with
distinct text in the same chain are distinct series, rules with identical
text in different chains or tables are distinct series, and no synthetic
rule identifier takes part in the identity. -/
theorem rule_series_identity (cmd cmd2 tn tn2 cn cn2 rt rt2 : String) (v v2 : Nat) :
    (seriesKey (Metric.rulePackets cmd tn cn rt v)
          = seriesKey (Metric.rulePackets cmd2 tn2 cn2 rt2 v2)
        ↔ cmd = cmd2 ∧ tn = tn2 ∧ cn = cn2 ∧ rt = rt2)
      ∧ (rt ≠ rt2 → seriesKey (Metric.rulePackets cmd tn cn rt v)
          ≠ seriesKey (Metric.rulePackets cmd tn cn rt2 v2))
      ∧ ((tn ≠ tn2 ∨ cn ≠ cn2) → seriesKey (Metric.rulePackets cmd tn cn rt v)
          ≠ seriesKey (Metric.rulePackets cmd tn2 cn2 rt v2))
      ∧ (seriesKey (Metric.ruleBytes cmd tn cn rt v)
          = seriesKey (Metric.ruleBytes cmd2 tn2 cn2 rt2 v2)
        ↔ cmd = cmd2 ∧ tn = tn2 ∧ cn = cn2 ∧ rt = rt2) := by
  refine ⟨?_, ?_, ?_, ?_⟩ <;> simp only [seriesKey, Prod.mk.injEq, List.cons.injEq,
    and_true, true_and, ne_eq] <;> tauto

/-- Witness for C7: distinct rule text in the same chain gives distinct
keys; identical rule text in distinct chains gives distinct keys. -/
theorem rule_series_identity_witness :
    seriesKey (Metric.rulePackets "iptables-save" "filter" "INPUT" "-A INPUT -j ACCEPT" 4)
        ≠ seriesKey (Metric.rulePackets "iptables-save" "filter" "INPUT" "-A INPUT -j DROP" 4)
      ∧ seriesKey (Metric.rulePackets "iptables-save" "filter" "INPUT" "-A INPUT -j ACCEPT" 4)
        ≠ seriesKey (Metric.rulePackets "iptables-save" "filter" "OUTPUT" "-A INPUT -j ACCEPT" 4) :=
  ⟨(rule_series_identity "iptables-save" "iptables-save" "filter" "filter" "INPUT" "INPUT"
      "-A INPUT -j ACCEPT" "-A INPUT -j DROP" 4 4).2.1 (by decide),
   (rule_series_identity "iptables-save" "iptables-save" "filter" "filter" "INPUT" "OUTPUT"
      "-A INPUT -j ACCEPT" "-A INPUT -j ACCEPT" 4 4).2.2.1 (Or.inr (by decide))⟩

/-- C8: sample production is deterministic in the parsed counter
hierarchy.  If on every command the two runners return the same
table/chain/rule structure with the same counter values — the same up to
map enumeration order, which Go does not fix — then the two scrapes emit
the same multiset of labeled samples with the same values, the wall-clock
duration value aside. -/
theorem collect_deterministic (splitter : Splitter) (runner1 runner2 : Runner)
    (dur1 dur2 : ℚ) (cmds : List String)
    (hrel : ∀ command args, runnerPermOpt (runner1 command args) (runner2 command args)) :
    ((collect splitter runner1 dur1 cmds).map eraseDuration).Perm
      ((collect splitter runner2 dur2 cmds).map eraseDuration) := by
  have hperm := collectLoop_perm splitter runner1 runner2 cmds hrel
  unfold collect
  cases hl1 : collectLoop splitter runner1 cmds with
  | mk ms1 ex1 =>
  cases hl2 : collectLoop splitter runner2 cmds with
  | mk ms2 ex2 =>
  rw [hl1, hl2] at hperm
  obtain ⟨hp, he⟩ := hperm
  dsimp only at hp he
  subst he
  cases ex1 with
  | done =>
    simp only [List.map_append, List.map_cons, List.map_nil, eraseDuration]
    exact (hp.map eraseDuration).append_right _
  | failed => exact hp.map eraseDuration
  | panicked => exact hp.map eraseDuration

/-- Runner returning the permutation-witness structure in one
enumeration order. -/
def permRunner1 : Runner := fun _ _ =>
  some [("filter", [("INPUT", ⟨"ACCEPT", 3, 30, []⟩), ("OUTPUT", ⟨"DROP", 5, 50, []⟩)])]

/-- The same structure with the chains enumerated in the other order. -/
def permRunner2 : Runner := fun _ _ =>
  some [("filter", [("OUTPUT", ⟨"DROP", 5, 50, []⟩), ("INPUT", ⟨"ACCEPT", 3, 30, []⟩)])]

/-- Witness for C8: two enumerations of the same two-chain table yield
permuted sample streams once the duration value is erased. -/
theorem collect_deterministic_witness :
    ((collect exSplit permRunner1 1 ["iptables-save -c"]).map eraseDuration).Perm
      ((collect exSplit permRunner2 2 ["iptables-save -c"]).map eraseDuration) :=
  collect_deterministic exSplit permRunner1 permRunner2 1 2 ["iptables-save -c"]
    (fun _ _ =>
      ⟨[("filter", [("INPUT", ⟨"ACCEPT", 3, 30, []⟩), ("OUTPUT", ⟨"DROP", 5, 50, []⟩)])],
       List.Perm.refl _,
       List.Forall₂.cons ⟨rfl, List.Perm.swap _ _ _⟩ List.Forall₂.nil⟩)

/-- C9: the duration sample is only emitted on a fully successful scrape:
when a command fails (the earlier ones being skipped or successful), no
`scrape_duration_seconds` sample of any value appears in the stream, even
though the duration descriptor is always among the listed descriptors. -/
theorem no_duration_on_failure (splitter : Splitter) (runner : Runner) (dur : ℚ)
    (pre post : List String) (c : String)
    (hpre : ∀ p ∈ pre, stepCommand splitter runner p ≠ CmdStep.failed
      ∧ stepCommand splitter runner p ≠ CmdStep.panicked)
    (hc : stepCommand splitter runner c = CmdStep.failed) :
    (∀ q : ℚ, Metric.scrapeDuration q ∉ collect splitter runner dur (pre ++ c :: post))
      ∧ ∀ h : List (List Metric), scrapeDurationDesc ∈ describe h := by
  refine ⟨?_, fun h => List.mem_cons_self _ _⟩
  intro q hq
  rw [collect_failed_eq splitter runner dur pre post c hpre hc] at hq
  rcases List.mem_append.mp hq with hq | hq
  · obtain ⟨p, _, hmem⟩ := List.mem_flatMap.mp hq
    have hfalse := (mem_emitOf_shape splitter runner p _ hmem).2.1
    simp [isDurationSample] at hfalse
  · simp at hq

/-- Witness for C9: the failing second command suppresses the duration
sample. -/
theorem no_duration_on_failure_witness :
    Metric.scrapeDuration 7
        ∉ collect exSplit exRunner 7 (["iptables-save -c"] ++ "ip6tables-save -c" :: [])
      ∧ scrapeDurationDesc ∈ describe [] :=
  ⟨(no_duration_on_failure exSplit exRunner 7 ["iptables-save -c"] [] "ip6tables-save -c"
      (by decide) (by decide)).1 7,
   (no_duration_on_failure exSplit exRunner 7 ["iptables-save -c"] [] "ip6tables-save -c"
      (by decide) (by decide)).2 []⟩

/-- C10: the command label of every default/rule sample is the
whitespace-trimmed first token of the configured command string's split —
the executable name, not the full configured string — so two configured
strings whose first tokens trim to the same executable yield samples with
identical command label values, whatever their remaining arguments. -/
theorem command_label_semantics (splitter : Splitter) (runner : Runner) (dur : ℚ)
    (cmds : List String) :
    (∀ m ∈ collect splitter runner dur cmds,
        commandLabel m = none
          ∨ ∃ c, c ∈ cmds ∧ ∃ t0 args, (splitter c).1 = t0 :: args
              ∧ commandLabel m = some (trimWS t0))
      ∧ ∀ c1 c2 t0 t0b a1 a2, (splitter c1).1 = t0 :: a1 → (splitter c2).1 = t0b :: a2 →
          trimWS t0 = trimWS t0b →
          ∀ m1 ∈ collect splitter runner dur [c1], ∀ m2 ∈ collect splitter runner dur [c2],
            commandLabel m1 ≠ none → commandLabel m2 ≠ none →
            commandLabel m1 = commandLabel m2 := by
  have hgen : ∀ (l : List String) (m : Metric), m ∈ collect splitter runner dur l →
      commandLabel m = none
        ∨ ∃ c, c ∈ l ∧ ∃ t0 args, (splitter c).1 = t0 :: args
            ∧ commandLabel m = some (trimWS t0) := by
    intro l m hm
    rcases mem_collect_cases splitter runner dur l m hm with hm | rfl | rfl
    · rcases mem_loop_label splitter runner l m hm with rfl | h
      · exact Or.inl rfl
      · exact Or.inr h
    · exact Or.inl rfl
    · exact Or.inl rfl
  refine ⟨fun m hm => hgen cmds m hm, ?_⟩
  intro c1 c2 t0 t0b a1 a2 h1 h2 htrim m1 hm1 m2 hm2 hn1 hn2
  rcases hgen [c1] m1 hm1 with h | ⟨d, hd, s0, sargs, hsp, hlab⟩
  · exact absurd h hn1
  rcases hgen [c2] m2 hm2 with h | ⟨d2, hd2, s0b, sargsb, hspb, hlabb⟩
  · exact absurd h hn2
  rcases List.mem_singleton.mp hd with rfl
  rcases List.mem_singleton.mp hd2 with rfl
  rw [h1] at hsp
  rw [h2] at hspb
  injection hsp with hs0 _
  injection hspb with hs0b _
  rw [hlab, hlabb, ← hs0, ← hs0b, htrim]

/-- Witness for C10: the scenario's default-packets sample carries the
trimmed executable token as command label. -/
theorem command_label_semantics_witness :
    commandLabel (Metric.defaultPackets "iptables-save" "filter" "INPUT" "ACCEPT" 10) = none
      ∨ ∃ c, c ∈ ["iptables-save -c"] ∧ ∃ t0 args, (exSplit c).1 = t0 :: args
          ∧ commandLabel (Metric.defaultPackets "iptables-save" "filter" "INPUT" "ACCEPT" 10)
            = some (trimWS t0) :=
  (command_label_semantics exSplit exRunner 1 ["iptables-save -c"]).1
    (Metric.defaultPackets "iptables-save" "filter" "INPUT" "ACCEPT" 10) (by decide)

end IptablesExporter
